import Mathlib

/-!
Shallow embedding of the supervision / position-risk / monitoring core of
the Project3 trading system (src/core/position_manager.py,
src/core/monitoring.py, src/core/master_agent.py, src/core/risk_metrics.py),
with theorems settling the spec claims about it.

Modelling conventions:
* Python floats are modelled as rationals (ℚ); the risk-metric functions that
  genuinely need square roots use ℝ.
* Python dicts (insertion-ordered, unique string keys) are modelled as
  association lists `List (String × α)`; assignment to an existing key updates
  the value in place, assignment to a fresh key appends.
* `datetime` timestamps and log messages are not part of any claim and are
  omitted; where a claim is about logging an error we return a Bool flag.
* asyncio tasks are modelled by counting how many sampling-loop tasks have
  been spawned (`tasks` field); a raised-and-propagated exception is modelled
  by a Bool component of the result.
-/

namespace Project3

/-! ### Python dict operations (insertion-ordered association lists) -/

def dictLookup {α : Type} : List (String × α) → String → Option α
  | [], _ => none
  | (k, v) :: rest, key => if k = key then some v else dictLookup rest key

/-- Python `d[key] = v`: update in place if present, else append at the end. -/
def dictInsert {α : Type} : List (String × α) → String → α → List (String × α)
  | [], key, v => [(key, v)]
  | (k, w) :: rest, key, v =>
      if k = key then (key, v) :: rest else (k, w) :: dictInsert rest key v

/-- Python `del d[key]`: remove the (unique) entry with that key. -/
def dictErase {α : Type} : List (String × α) → String → List (String × α)
  | [], _ => []
  | (k, w) :: rest, key => if k = key then rest else (k, w) :: dictErase rest key

theorem dictLookup_insert_self {α : Type} (l : List (String × α)) (k : String) (v : α) :
    dictLookup (dictInsert l k v) k = some v := by
  induction l with
  | nil => simp [dictInsert, dictLookup]
  | cons hd tl ih =>
      obtain ⟨k0, v0⟩ := hd
      by_cases h : k0 = k
      · simp [dictInsert, h, dictLookup]
      · simp [dictInsert, h, dictLookup, ih]

theorem dictInsert_keys_of_mem {α : Type} (l : List (String × α)) (k : String) (v : α)
    (h : k ∈ l.map Prod.fst) :
    (dictInsert l k v).map Prod.fst = l.map Prod.fst := by
  induction l with
  | nil => simp at h
  | cons hd tl ih =>
      obtain ⟨k0, v0⟩ := hd
      by_cases hk : k0 = k
      · simp [dictInsert, hk]
      · rw [List.map_cons] at h
        rcases List.mem_cons.mp h with h | h
        · exact absurd h.symm hk
        · simp [dictInsert, hk, ih h]

theorem dictInsert_mem {α : Type} (l : List (String × α)) (k : String) (v : α)
    (e : String × α) (he : e ∈ dictInsert l k v) : e = (k, v) ∨ e ∈ l := by
  induction l with
  | nil => simp [dictInsert] at he; simp [he]
  | cons hd tl ih =>
      obtain ⟨k0, v0⟩ := hd
      by_cases hk : k0 = k
      · simp [dictInsert, hk] at he
        rcases he with he | he
        · left; simp [he]
        · right; simp [he]
      · simp [dictInsert, hk] at he
        rcases he with he | he
        · right; simp [he]
        · rcases ih he with h | h
          · left; exact h
          · right; simp [h]

theorem dictLookup_eq_none_of_not_mem {α : Type} (l : List (String × α)) (k : String)
    (h : k ∉ l.map Prod.fst) :
    dictLookup l k = none := by
  induction l with
  | nil => rfl
  | cons hd tl ih =>
      obtain ⟨k0, v0⟩ := hd
      rw [List.map_cons] at h
      have h1 : k0 ≠ k := fun he => h (by simp [he])
      have h2 : k ∉ tl.map Prod.fst := fun hm => h (List.mem_cons_of_mem _ hm)
      simp [dictLookup, h1, ih h2]

theorem dictLookup_erase_self {α : Type} (l : List (String × α)) (k : String)
    (hnd : (l.map Prod.fst).Nodup) :
    dictLookup (dictErase l k) k = none := by
  induction l with
  | nil => rfl
  | cons hd tl ih =>
      obtain ⟨k0, v0⟩ := hd
      rw [List.map_cons, List.nodup_cons] at hnd
      by_cases hk : k0 = k
      · subst hk
        simp only [dictErase, if_pos rfl]
        exact dictLookup_eq_none_of_not_mem tl k0 hnd.1
      · simp [dictErase, hk, dictLookup, ih hnd.2]

/-! ### Position manager (src/core/position_manager.py) -/

/-- A trading position (class `Position`); `entry_time` is an opaque timestamp
used by no claim and omitted. -/
structure Position where
  symbol : String
  size : ℚ
  entry_price : ℚ
  direction : String
  stop_loss : Option ℚ
  take_profit : Option ℚ
  pnl : ℚ
  status : String
  deriving DecidableEq, Repr

/-- `Position.__init__`: pnl starts at 0.0 and status at "open". -/
def Position.mkNew (symbol : String) (size entry_price : ℚ) (direction : String)
    (stop_loss take_profit : Option ℚ) : Position :=
  ⟨symbol, size, entry_price, direction, stop_loss, take_profit, 0, "open"⟩

/-- `Position.update`: pnl := (current_price - entry_price) * size * multiplier,
multiplier = 1 for "long" else -1. -/
def Position.update (p : Position) (current_price : ℚ) : Position :=
  let multiplier : ℚ := if p.direction = "long" then 1 else -1
  { p with pnl := (current_price - p.entry_price) * p.size * multiplier }

/-- State of a `PositionManager` instance. -/
structure PMState where
  positions : List (String × Position)
  max_positions : ℕ
  total_exposure : ℚ
  max_exposure : ℚ
  deriving DecidableEq, Repr

/-- `PositionManager.__init__`: empty dict, max 10 positions, $100k max exposure. -/
def PMState.initial : PMState := ⟨[], 10, 0, 100000⟩

/-- `PositionManager.open_position`: rejects when the position count is already
at the maximum or when the added notional would exceed the exposure cap;
otherwise stores the new position (dict assignment) and adds the notional. -/
def openPosition (st : PMState) (symbol : String) (size entry_price : ℚ)
    (direction : String) (stop_loss take_profit : Option ℚ) : Bool × PMState :=
  if st.positions.length ≥ st.max_positions then
    (false, st)
  else
    let new_exposure := size * entry_price
    if st.total_exposure + new_exposure > st.max_exposure then
      (false, st)
    else
      let position := Position.mkNew symbol size entry_price direction stop_loss take_profit
      (true, { st with
                positions := dictInsert st.positions symbol position,
                total_exposure := st.total_exposure + new_exposure })

/-- `PositionManager.close_position`: returns false and mutates nothing when the
symbol has no open position; otherwise recomputes pnl at the exit price,
subtracts the entry notional from total exposure, archives the record with
status "closed" (third component) and deletes the dict entry. -/
def closePosition (st : PMState) (symbol : String) (exit_price : ℚ) :
    Bool × PMState × Option Position :=
  match dictLookup st.positions symbol with
  | none => (false, st, none)
  | some position =>
      let p1 := position.update exit_price
      let st1 : PMState :=
        { st with
          positions := dictErase st.positions symbol,
          total_exposure := st.total_exposure - p1.size * p1.entry_price }
      (true, st1, some { p1 with status := "closed" })

/-- Python truthiness of an `Optional[float]`: None and 0.0 are falsy. -/
def truthy : Option ℚ → Bool
  | none => false
  | some x => decide (x ≠ 0)

/-- Condition `position.stop_loss and position.direction == "long" and price <= position.stop_loss`. -/
def slLongHit (p : Position) (price : ℚ) : Bool :=
  truthy p.stop_loss && decide (p.direction = "long") && decide (price ≤ p.stop_loss.getD 0)

/-- Condition `position.stop_loss and position.direction == "short" and price >= position.stop_loss`. -/
def slShortHit (p : Position) (price : ℚ) : Bool :=
  truthy p.stop_loss && decide (p.direction = "short") && decide (price ≥ p.stop_loss.getD 0)

/-- Condition `position.take_profit and position.direction == "long" and price >= position.take_profit`. -/
def tpLongHit (p : Position) (price : ℚ) : Bool :=
  truthy p.take_profit && decide (p.direction = "long") && decide (price ≥ p.take_profit.getD 0)

/-- Condition `position.take_profit and position.direction == "short" and price <= position.take_profit`. -/
def tpShortHit (p : Position) (price : ℚ) : Bool :=
  truthy p.take_profit && decide (p.direction = "short") && decide (price ≤ p.take_profit.getD 0)

/-- The if/elif chain of `update_positions`; every branch performs the same
close call, so the chain collapses to this disjunction for the close decision. -/
def shouldClose (p : Position) (price : ℚ) : Bool :=
  if slLongHit p price then true
  else if slShortHit p price then true
  else if tpLongHit p price then true
  else if tpShortHit p price then true
  else false

/-- The `for symbol, position in self.positions.items()` loop of
`update_positions`. `entries` is the iterator's view (the dict contents when
iteration starts; values of not-yet-visited distinct keys are unchanged until
visited). A close deletes a dict entry during iteration, so the iterator's
next step raises `RuntimeError: dictionary changed size during iteration`,
which propagates out of `update_positions`; the Bool result records that the
call raised. -/
def updateLoop (prices : List (String × ℚ)) :
    List (String × Position) → PMState → PMState × Bool
  | [], st => (st, false)
  | (symbol, position) :: rest, st =>
      match dictLookup prices symbol with
      | none => updateLoop prices rest st
      | some price =>
          let p1 := position.update price
          let st1 : PMState := { st with positions := dictInsert st.positions symbol p1 }
          if shouldClose p1 price then
            let r := closePosition st1 symbol price
            (r.2.1, true)
          else
            updateLoop prices rest st1

/-- `PositionManager.update_positions`: returns the final state and whether the
call raised `RuntimeError` (dict mutated during iteration). -/
def updatePositions (st : PMState) (prices : List (String × ℚ)) : PMState × Bool :=
  updateLoop prices st.positions st

/-- Sum of `size * entry_price` over the currently open positions. -/
def sumNotional (l : List (String × Position)) : ℚ :=
  (l.map (fun e => e.2.size * e.2.entry_price)).sum

/-! ### System monitor (src/core/monitoring.py) -/

/-- State of a `SystemMonitor`; `M` is the type of a metrics snapshot (the
snapshots themselves come from psutil and are opaque data to the claims).
`tasks` counts how many `_monitor_loop` tasks `asyncio.create_task` has
spawned; alert thresholds and callbacks are carried by no claim and omitted. -/
structure SMState (M : Type) where
  metrics_history : List M
  max_history_size : ℕ
  monitoring : Bool
  tasks : ℕ
  deriving DecidableEq, Repr

/-- `SystemMonitor.__init__`: empty history, capacity 1000, not monitoring. -/
def SMState.initial (M : Type) : SMState M := ⟨[], 1000, false, 0⟩

/-- `SystemMonitor.start_monitoring`: sets the flag and unconditionally calls
`asyncio.create_task(self._monitor_loop())`. -/
def startMonitoring {M : Type} (s : SMState M) : SMState M :=
  { s with monitoring := true, tasks := s.tasks + 1 }

/-- `SystemMonitor.stop_monitoring`: clears the flag only. -/
def stopMonitoring {M : Type} (s : SMState M) : SMState M :=
  { s with monitoring := false }

/-- One storage step of `_monitor_loop`: append the collected snapshot, then
pop the front entry when the list has grown past `max_history_size`. -/
def monitorTick {M : Type} (s : SMState M) (metrics : M) : SMState M :=
  let h := s.metrics_history ++ [metrics]
  { s with metrics_history := if h.length > s.max_history_size then h.tail else h }

/-! ### Risk calculator (src/core/risk_metrics.py) -/

/-- `np.mean` of a list of reals. -/
noncomputable def npMean (l : List ℝ) : ℝ := l.sum / l.length

/-- `np.std` (population standard deviation). -/
noncomputable def npStd (l : List ℝ) : ℝ :=
  Real.sqrt (npMean (l.map (fun x => (x - npMean l) ^ 2)))

/-- `RiskCalculator.calculate_sharpe_ratio`: subtracts the daily risk-free rate,
returns 0.0 when fewer than 2 observations, else `sqrt(252) * mean / std`. -/
noncomputable def calculate_sharpe_ratio (returns : List ℝ) (risk_free_rate : ℝ) : ℝ :=
  let excess_returns := returns.map (fun r => r - risk_free_rate / 252)
  if excess_returns.length < 2 then 0
  else Real.sqrt 252 * (npMean excess_returns / npStd excess_returns)

/-! ### Master agent (src/core/master_agent.py) -/

/-- The closed set of agent classes imported by master_agent.py. -/
inductive AgentClass
  | strategy
  | risk
  | deployment
  | backtesting
  | research
  deriving DecidableEq, Repr

/-- `agent.__class__.__name__` for each class. -/
def AgentClass.pyClassName : AgentClass → String
  | .strategy => "StrategyAgent"
  | .risk => "RiskManagementAgent"
  | .deployment => "DeploymentAgent"
  | .backtesting => "BacktestingAgent"
  | .research => "ResearchAgent"

/-- Python `str.lower()` on ASCII strings. -/
def lowerString (s : String) : String := String.mk (s.data.map Char.toLower)

/-- Agent configurations are opaque key-value maps passed through unchanged. -/
abbrev Config : Type := List (String × String)

/-- An agent as the supervisor sees it: its class, its `config` kwargs and its
mutable `status` string (id, timestamps and error_count are used by no claim
and omitted). -/
structure Agent where
  cls : AgentClass
  config : Config
  status : String
  deriving DecidableEq

/-- The `agent_classes` lookup inside `_create_agent_instance`: the dict keys
are the five lowercase type tags. -/
def parseAgentType (agent_type : String) : Option AgentClass :=
  if agent_type = "strategy" then some .strategy
  else if agent_type = "risk" then some .risk
  else if agent_type = "deployment" then some .deployment
  else if agent_type = "backtesting" then some .backtesting
  else if agent_type = "research" then some .research
  else none

/-- `MasterAgent._create_agent_instance`: raises `ValueError` on an unknown
type tag, else constructs `agent_classes[agent_type](**config)`; the
constructor (`BaseAgent.__init__`) sets status to "initialized". -/
def createAgentInstance (agent_type : String) (config : Config) : Except String Agent :=
  match parseAgentType agent_type with
  | none => Except.error ("Unknown agent type: " ++ agent_type)
  | some c => Except.ok ⟨c, config, "initialized"⟩

/-- `MasterAgent._handle_agent_failure`. `initEffect` abstracts what a given
agent's `initialize()` coroutine does to the agent (the concrete subclasses
live outside this core). The call re-initializes the registered agent in
place; if its status is still not "active" it asks `_create_agent_instance`
for a replacement using `agent.__class__.__name__.lower()` as the type tag,
initializes the replacement and stores it under the same id. Any exception is
caught and logged; the Bool result records whether an error was logged. -/
def handleAgentFailure (initEffect : Agent → Agent)
    (registry : List (String × Agent)) (agent_id : String) (agent : Agent) :
    List (String × Agent) × Bool :=
  let a1 := initEffect agent
  let registry1 := dictInsert registry agent_id a1
  if a1.status = "active" then
    (registry1, false)
  else
    match createAgentInstance (lowerString a1.cls.pyClassName) a1.config with
    | Except.error _ => (registry1, true)
    | Except.ok new_agent =>
        (dictInsert registry1 agent_id (initEffect new_agent), false)

/-! ### Concrete states used by the theorems below -/

def c3Full : PMState := ⟨[], 10, 95000, 100000⟩

def c4State : PMState :=
  (openPosition ((openPosition PMState.initial "A" 1 100 "long" (some 90) none).2)
      "B" 1 50 "long" none none).2

def c5Pos : Position := Position.mkNew "A" 2 10 "long" none none

/-- The ledger state after `open("A", 2, 10, "long")` from the initial state
(see `c5State_reachable`). -/
def c5State : PMState := ⟨[("A", c5Pos)], 10, 20, 100000⟩

theorem c5State_reachable :
    (openPosition PMState.initial "A" 2 10 "long" none none).2 = c5State := by
  norm_num [openPosition, PMState.initial, dictInsert, Position.mkNew, c5State, c5Pos]

def c8State : SMState ℕ := ⟨[0, 1], 2, true, 1⟩

def c10Pos : Position := ⟨"A", 1, 10, "long", some 0, some 0, 0, "open"⟩

def c10State : PMState := ⟨[("A", c10Pos)], 10, 10, 100000⟩

def posOf (symbol : String) : Position := Position.mkNew symbol 1 1 "long" none none

/-- A ledger holding ten open positions of distinct symbols, 1 @ 1 each:
the position count sits exactly at the configured maximum of 10. -/
def tenPositions : PMState :=
  ⟨[("P0", posOf "P0"), ("P1", posOf "P1"), ("P2", posOf "P2"), ("P3", posOf "P3"),
    ("P4", posOf "P4"), ("P5", posOf "P5"), ("P6", posOf "P6"), ("P7", posOf "P7"),
    ("P8", posOf "P8"), ("P9", posOf "P9")], 10, 10, 100000⟩

/-! ### Claim theorems -/

/-- C1 The claimed ledger invariant `total_exposure = Σ size * entry_price over
open positions` breaks when `open` is called again for a symbol that already
has an open position: the second open of "A" succeeds, overwrites the dict
entry, and adds its notional without removing the first one, so the recorded
exposure is 30 while the open positions carry notional 20. -/
theorem open_reopen_exposure_drift :
    (openPosition PMState.initial "A" 1 10 "long" none none).1 = true ∧
    (openPosition ((openPosition PMState.initial "A" 1 10 "long" none none).2)
        "A" 1 20 "long" none none).1 = true ∧
    ((openPosition ((openPosition PMState.initial "A" 1 10 "long" none none).2)
        "A" 1 20 "long" none none).2).total_exposure = 30 ∧
    sumNotional ((openPosition ((openPosition PMState.initial "A" 1 10 "long" none none).2)
        "A" 1 20 "long" none none).2).positions = 20 := by
  norm_num [openPosition, PMState.initial, dictInsert, sumNotional, Position.mkNew]

/-- C2 An open call made while the open-position count already equals the
configured maximum returns false and leaves the whole ledger state unchanged. -/
theorem open_rejects_at_max_positions (st : PMState) (symbol : String)
    (size entry_price : ℚ) (direction : String) (stop_loss take_profit : Option ℚ)
    (h : st.positions.length = st.max_positions) :
    openPosition st symbol size entry_price direction stop_loss take_profit = (false, st) := by
  unfold openPosition
  rw [if_pos (ge_of_eq h)]

/-- Witness for C2: after ten successful opens of distinct symbols the ledger
holds 10 = max positions, and the eleventh open is rejected without mutation. -/
theorem open_rejects_at_max_positions_witness :
    tenPositions.positions.length = tenPositions.max_positions ∧
    openPosition tenPositions "K" 1 1 "long" none none = (false, tenPositions) :=
  ⟨rfl, open_rejects_at_max_positions tenPositions "K" 1 1 "long" none none rfl⟩

/-- C3 An open call whose notional pushed past the exposure cap returns false
and leaves the state unchanged; an open call within both limits stores the
position under its symbol and adds exactly `size * entry_price` to the total
exposure. -/
theorem open_exposure_cap_spec (st : PMState) (symbol : String) (size entry_price : ℚ)
    (direction : String) (stop_loss take_profit : Option ℚ) :
    (st.total_exposure + size * entry_price > st.max_exposure →
      openPosition st symbol size entry_price direction stop_loss take_profit = (false, st)) ∧
    (st.positions.length < st.max_positions →
      st.total_exposure + size * entry_price ≤ st.max_exposure →
      openPosition st symbol size entry_price direction stop_loss take_profit =
        (true, { st with
                  positions := dictInsert st.positions symbol
                    (Position.mkNew symbol size entry_price direction stop_loss take_profit),
                  total_exposure := st.total_exposure + size * entry_price }) ∧
      dictLookup (dictInsert st.positions symbol
          (Position.mkNew symbol size entry_price direction stop_loss take_profit)) symbol =
        some (Position.mkNew symbol size entry_price direction stop_loss take_profit)) := by
  constructor
  · intro hcap
    unfold openPosition
    by_cases hlen : st.positions.length ≥ st.max_positions
    · rw [if_pos hlen]
    · rw [if_neg hlen, if_pos hcap]
  · intro hlen hcap
    refine ⟨?_, dictLookup_insert_self _ _ _⟩
    unfold openPosition
    rw [if_neg (not_le.mpr hlen), if_neg (not_lt.mpr hcap)]

/-- Witness for C3: with exposure 95000 and cap 100000, a new notional of
100 * 100 = 10000 is rejected without mutation; from the initial state a
2 @ 5 open succeeds and adds notional 10. -/
theorem open_exposure_cap_spec_witness :
    openPosition c3Full "A" 100 100 "long" none none = (false, c3Full) ∧
    (openPosition PMState.initial "A" 2 5 "long" none none =
        (true, { PMState.initial with
                  positions := dictInsert PMState.initial.positions "A"
                    (Position.mkNew "A" 2 5 "long" none none),
                  total_exposure := PMState.initial.total_exposure + 2 * 5 }) ∧
      dictLookup (dictInsert PMState.initial.positions "A"
          (Position.mkNew "A" 2 5 "long" none none)) "A" =
        some (Position.mkNew "A" 2 5 "long" none none)) :=
  ⟨(open_exposure_cap_spec c3Full "A" 100 100 "long" none none).1
     (by norm_num [c3Full]),
   (open_exposure_cap_spec PMState.initial "A" 2 5 "long" none none).2
     (by norm_num [PMState.initial]) (by norm_num [PMState.initial])⟩

/-- C4 `update_positions` with a price breaching the first position's stop-loss
closes exactly that position and then aborts: the close deletes a dict entry
while `self.positions.items()` is being iterated, so the next iterator step
raises RuntimeError (second component true). The later position "B", although
its symbol is in the price map, keeps pnl 0 — its pnl is never recomputed —
contradicting the claim that every mapped position is updated. -/
theorem update_positions_close_aborts_iteration :
    (updatePositions c4State [("A", 80), ("B", 60)]).2 = true ∧
    dictLookup (updatePositions c4State [("A", 80), ("B", 60)]).1.positions "A" = none ∧
    dictLookup (updatePositions c4State [("A", 80), ("B", 60)]).1.positions "B" =
      some (Position.mkNew "B" 1 50 "long" none none) ∧
    (updatePositions c4State [("A", 80), ("B", 60)]).1.total_exposure = 50 := by
  norm_num [c4State, updatePositions, updateLoop, closePosition, shouldClose, slLongHit,
    slShortHit, tpLongHit, tpShortHit, truthy, Position.update, Position.mkNew,
    dictLookup, dictInsert, dictErase, openPosition, PMState.initial]
  intro h
  exact absurd h (by decide)

/-- C5 `close_position` on a symbol with no open position returns false and
mutates nothing; on an open position it recomputes pnl at the exit price,
subtracts the entry notional `size * entry_price` from total exposure, archives
the record with status "closed", removes the symbol from the open set and
returns true. -/
theorem close_position_spec (st : PMState) (symbol : String) (exit_price : ℚ) :
    (dictLookup st.positions symbol = none →
      closePosition st symbol exit_price = (false, st, none)) ∧
    (∀ p, dictLookup st.positions symbol = some p →
      closePosition st symbol exit_price =
        (true,
         { st with
            positions := dictErase st.positions symbol,
            total_exposure := st.total_exposure - p.size * p.entry_price },
         some { p.update exit_price with status := "closed" }) ∧
      (p.update exit_price).pnl =
        (exit_price - p.entry_price) * p.size * (if p.direction = "long" then 1 else -1) ∧
      ((st.positions.map Prod.fst).Nodup →
        dictLookup (dictErase st.positions symbol) symbol = none)) := by
  constructor
  · intro h
    unfold closePosition
    rw [h]
  · intro p hp
    refine ⟨?_, rfl, fun hnd => dictLookup_erase_self _ _ hnd⟩
    unfold closePosition
    rw [hp]
    rfl

/-- Witness for C5: closing the unknown symbol "B" fails without mutation;
closing the open 2 @ 10 long position "A" at price 12 removes it, subtracts
its entry notional 20 and archives it closed with pnl (12 - 10) * 2 = 4. -/
theorem close_position_spec_witness :
    closePosition c5State "B" 7 = (false, c5State, none) ∧
    (closePosition c5State "A" 12 =
        (true,
         { c5State with
            positions := dictErase c5State.positions "A",
            total_exposure := c5State.total_exposure - c5Pos.size * c5Pos.entry_price },
         some { c5Pos.update 12 with status := "closed" }) ∧
      (c5Pos.update 12).pnl =
        (12 - c5Pos.entry_price) * c5Pos.size * (if c5Pos.direction = "long" then 1 else -1) ∧
      ((c5State.positions.map Prod.fst).Nodup →
        dictLookup (dictErase c5State.positions "A") "A" = none)) :=
  ⟨(close_position_spec c5State "B" 7).1 rfl,
   (close_position_spec c5State "A" 12).2 c5Pos rfl⟩

/-- The `agent_classes` lookup key computed by `_handle_agent_failure` is the
lowercased class name, which is never one of the dict's keys, so
`_create_agent_instance` always raises ValueError on the recovery path. -/
theorem recovery_lookup_always_fails (c : AgentClass) (config : Config) :
    createAgentInstance (lowerString c.pyClassName) config =
      Except.error ("Unknown agent type: " ++ lowerString c.pyClassName) := by
  cases c <;> rfl

/-- C6 `_handle_agent_failure` re-runs `initialize()` on the registered agent in
place, but the replacement branch always fails: the type tag it passes to
`_create_agent_instance` is `agent.__class__.__name__.lower()` (for example
"strategyagent"), which is not among the factory keys
strategy/risk/deployment/backtesting/research, so ValueError is raised, caught
and logged (flag true), and the registry still holds the old re-initialized
record; a brand-new replacement instance is never installed, for any behavior
of `initialize()` and any agent whose status remains non-"active". -/
theorem handle_agent_failure_never_replaces (initEffect : Agent → Agent)
    (registry : List (String × Agent)) (agent_id : String) (agent : Agent) :
    handleAgentFailure initEffect registry agent_id agent =
      (dictInsert registry agent_id (initEffect agent),
       !((initEffect agent).status == "active")) := by
  unfold handleAgentFailure
  by_cases h : (initEffect agent).status = "active"
  · simp [h]
  · simp only [if_neg h, recovery_lookup_always_fails]
    simp [h]

/-- C7 `start_monitoring` unconditionally calls
`asyncio.create_task(self._monitor_loop())`: starting from the fresh monitor
(zero tasks), the first call leaves the monitor already running, and a second
call while running brings the count of spawned sampling loops to 2 — a second
concurrent sampling task is spawned. -/
theorem start_monitoring_always_spawns :
    (SMState.initial ℕ).tasks = 0 ∧
    (startMonitoring (SMState.initial ℕ)).monitoring = true ∧
    (startMonitoring (SMState.initial ℕ)).tasks = 1 ∧
    (startMonitoring (startMonitoring (SMState.initial ℕ))).tasks = 2 :=
  ⟨rfl, rfl, rfl, rfl⟩

theorem getLast?_append_singleton {α : Type} (l : List α) (a : α) :
    (l ++ [a]).getLast? = some a := by
  induction l with
  | nil => rfl
  | cons hd tl ih =>
      cases htl : tl ++ [a] with
      | nil => exact absurd htl (by simp)
      | cons x xs =>
          rw [List.cons_append, htl, List.getLast?_cons_cons, ← htl, ih]

theorem tail_append_singleton_of_ne_nil {α : Type} {l : List α} (h : l ≠ []) (a : α) :
    (l ++ [a]).tail = l.tail ++ [a] := by
  cases l with
  | nil => exact absurd rfl h
  | cons hd tl => rfl

/-- C8 One sampling tick appends the new snapshot and keeps the history within
the configured capacity (default 1000): below capacity the snapshot is
appended; at capacity exactly the oldest entry is evicted (FIFO) and the
newest snapshot sits at the end of the buffer. -/
theorem monitor_tick_bounded_fifo {M : Type} (s : SMState M) (metrics : M)
    (hpos : 0 < s.max_history_size)
    (hlen : s.metrics_history.length ≤ s.max_history_size) :
    (SMState.initial M).max_history_size = 1000 ∧
    (monitorTick s metrics).metrics_history.length ≤ s.max_history_size ∧
    (monitorTick s metrics).metrics_history.getLast? = some metrics ∧
    (s.metrics_history.length = s.max_history_size →
      (monitorTick s metrics).metrics_history = s.metrics_history.tail ++ [metrics]) ∧
    (s.metrics_history.length < s.max_history_size →
      (monitorTick s metrics).metrics_history = s.metrics_history ++ [metrics]) := by
  refine ⟨rfl, ?_⟩
  have hview : (monitorTick s metrics).metrics_history =
      if (s.metrics_history ++ [metrics]).length > s.max_history_size
      then (s.metrics_history ++ [metrics]).tail else s.metrics_history ++ [metrics] := rfl
  rcases lt_or_eq_of_le hlen with hlt | heq
  · have hcond : ¬ ((s.metrics_history ++ [metrics]).length > s.max_history_size) := by
      rw [List.length_append, List.length_singleton]
      omega
    rw [hview, if_neg hcond]
    refine ⟨?_, getLast?_append_singleton _ _, ?_, fun _ => rfl⟩
    · rw [List.length_append, List.length_singleton]
      omega
    · intro h
      omega
  · have hne : s.metrics_history ≠ [] := by
      intro hnil
      rw [hnil] at heq
      simp at heq
      omega
    have hlenpos : 0 < s.metrics_history.length := List.length_pos.mpr hne
    have hcond : (s.metrics_history ++ [metrics]).length > s.max_history_size := by
      rw [List.length_append, List.length_singleton]
      omega
    rw [hview, if_pos hcond, tail_append_singleton_of_ne_nil hne]
    refine ⟨?_, getLast?_append_singleton _ _, fun _ => rfl, ?_⟩
    · rw [List.length_append, List.length_singleton, List.length_tail]
      omega
    · intro h
      omega

/-- Witness for C8: a monitor at capacity 2 holding [0, 1]; the tick with
snapshot 5 evicts the oldest entry 0 and appends 5 at the end. -/
theorem monitor_tick_bounded_fifo_witness :
    (SMState.initial ℕ).max_history_size = 1000 ∧
    (monitorTick c8State 5).metrics_history.length ≤ c8State.max_history_size ∧
    (monitorTick c8State 5).metrics_history.getLast? = some 5 ∧
    (c8State.metrics_history.length = c8State.max_history_size →
      (monitorTick c8State 5).metrics_history = c8State.metrics_history.tail ++ [5]) ∧
    (c8State.metrics_history.length < c8State.max_history_size →
      (monitorTick c8State 5).metrics_history = c8State.metrics_history ++ [5]) :=
  monitor_tick_bounded_fifo c8State 5 (by decide) (by decide)

/-- C9 `calculate_sharpe_ratio` returns 0.0 whenever the returns list has fewer
than 2 observations, whatever the observation values and risk-free rate. -/
theorem sharpe_ratio_short_input_zero (returns : List ℝ) (risk_free_rate : ℝ)
    (h : returns.length < 2) :
    calculate_sharpe_ratio returns risk_free_rate = 0 := by
  have hl : (returns.map (fun r => r - risk_free_rate / 252)).length < 2 := by
    rw [List.length_map]
    exact h
  simp only [calculate_sharpe_ratio]
  rw [if_pos hl]

/-- Witness for C9: a single observation of 5 at the default risk-free rate. -/
theorem sharpe_ratio_short_input_zero_witness :
    calculate_sharpe_ratio [5] 0.02 = 0 :=
  sharpe_ratio_short_input_zero [5] 0.02 (by simp)

theorem truthy_some_zero : truthy (some 0) = false := rfl

/-- An updated position keeps its stop-loss / take-profit configuration. -/
theorem shouldClose_not_truthy (p : Position) (price : ℚ)
    (hsl : truthy p.stop_loss = false) (htp : truthy p.take_profit = false) :
    shouldClose p price = false := by
  simp [shouldClose, slLongHit, slShortHit, tpLongHit, tpShortHit, hsl, htp]

theorem updateLoop_no_truthy_levels (prices : List (String × ℚ)) :
    ∀ (entries : List (String × Position)) (st : PMState),
      (∀ e ∈ entries, e.1 ∈ st.positions.map Prod.fst) →
      (∀ e ∈ entries, truthy e.2.stop_loss = false ∧ truthy e.2.take_profit = false) →
      (updateLoop prices entries st).2 = false ∧
      (updateLoop prices entries st).1.positions.map Prod.fst = st.positions.map Prod.fst ∧
      (updateLoop prices entries st).1.total_exposure = st.total_exposure := by
  intro entries
  induction entries with
  | nil => exact fun st _ _ => ⟨rfl, rfl, rfl⟩
  | cons e rest ih =>
      rintro st hmem hzero
      obtain ⟨symbol, position⟩ := e
      have hz := hzero (symbol, position) (List.mem_cons_self _ _)
      cases hpr : dictLookup prices symbol with
      | none =>
          have hrec := ih st (fun e he => hmem e (List.mem_cons_of_mem _ he))
            (fun e he => hzero e (List.mem_cons_of_mem _ he))
          have hstep : updateLoop prices ((symbol, position) :: rest) st =
              updateLoop prices rest st := by
            simp [updateLoop, hpr]
          rw [hstep]
          exact hrec
      | some price =>
          have hsc := shouldClose_not_truthy (position.update price) price hz.1 hz.2
          have hkeys : (dictInsert st.positions symbol (position.update price)).map Prod.fst
              = st.positions.map Prod.fst :=
            dictInsert_keys_of_mem _ _ _ (hmem (symbol, position) (List.mem_cons_self _ _))
          have hrec := ih
            { st with positions := dictInsert st.positions symbol (position.update price) }
            (fun e he => by
              show e.1 ∈ (dictInsert st.positions symbol (position.update price)).map Prod.fst
              rw [hkeys]
              exact hmem e (List.mem_cons_of_mem _ he))
            (fun e he => hzero e (List.mem_cons_of_mem _ he))
          have hstep : updateLoop prices ((symbol, position) :: rest) st =
              updateLoop prices rest
                { st with positions := dictInsert st.positions symbol (position.update price) } := by
            simp [updateLoop, hpr, hsc]
          rw [hstep]
          exact ⟨hrec.1, hrec.2.1.trans hkeys, hrec.2.2⟩

/-- C10 A stop_loss (or take_profit) stored as the number 0 is falsy in the
Python conditions of `update_positions`, so that exit level never fires: no
stop-loss (or take-profit) breach is evaluated for it at any price, and a
ledger whose positions all carry 0 levels is never auto-closed by
`update_positions` — no position is removed, no exposure changes, and no
close-triggered RuntimeError occurs. -/
theorem zero_levels_never_close (p : Position) (price : ℚ) (st : PMState)
    (prices : List (String × ℚ)) :
    (p.stop_loss = some 0 → slLongHit p price = false ∧ slShortHit p price = false) ∧
    (p.take_profit = some 0 → tpLongHit p price = false ∧ tpShortHit p price = false) ∧
    ((∀ e ∈ st.positions, e.2.stop_loss = some 0 ∧ e.2.take_profit = some 0) →
      (updatePositions st prices).2 = false ∧
      (updatePositions st prices).1.positions.map Prod.fst = st.positions.map Prod.fst ∧
      (updatePositions st prices).1.total_exposure = st.total_exposure) := by
  refine ⟨?_, ?_, ?_⟩
  · intro h
    constructor <;> simp [slLongHit, slShortHit, h, truthy_some_zero]
  · intro h
    constructor <;> simp [tpLongHit, tpShortHit, h, truthy_some_zero]
  · intro hall
    have h1 : ∀ e ∈ st.positions, e.1 ∈ st.positions.map Prod.fst :=
      fun e he => List.mem_map_of_mem Prod.fst he
    have h2 : ∀ e ∈ st.positions,
        truthy e.2.stop_loss = false ∧ truthy e.2.take_profit = false := by
      intro e he
      obtain ⟨hsl, htp⟩ := hall e he
      rw [hsl, htp]
      exact ⟨truthy_some_zero, truthy_some_zero⟩
    exact updateLoop_no_truthy_levels prices st.positions st h1 h2

/-- Witness for C10: a long position with stop_loss = 0 and take_profit = 0 is
not closed by any of the four exit conditions, and a price update at 5 leaves
the singleton ledger intact with no RuntimeError. -/
theorem zero_levels_never_close_witness :
    (slLongHit c10Pos 5 = false ∧ slShortHit c10Pos 5 = false) ∧
    (tpLongHit c10Pos 5 = false ∧ tpShortHit c10Pos 5 = false) ∧
    ((updatePositions c10State [("A", 5)]).2 = false ∧
     (updatePositions c10State [("A", 5)]).1.positions.map Prod.fst =
       c10State.positions.map Prod.fst ∧
     (updatePositions c10State [("A", 5)]).1.total_exposure = c10State.total_exposure) :=
  ⟨(zero_levels_never_close c10Pos 5 c10State [("A", 5)]).1 rfl,
   (zero_levels_never_close c10Pos 5 c10State [("A", 5)]).2.1 rfl,
   (zero_levels_never_close c10Pos 5 c10State [("A", 5)]).2.2 (by
      intro e he
      rcases List.mem_singleton.mp he with rfl
      exact ⟨rfl, rfl⟩)⟩

end Project3
